import Mathlib

/-!
# Verification of the Reddit bulk post-submission pipeline

A shallow embedding, in Lean 4, of the core of the `redit-post` repository:
the proxy agent factory (`getProxyAgents`), the token acquirer
(`getAccessToken`), the submission executor (`uploadPost`), the delay
sampler (`getRandomDelay`), the batch orchestrator (`uploadAllPosts`), the
text-file parser (`parseTxtFile`), and the frontend batch loop (`postAll`).

JavaScript values flowing through the response-normalization code are
modelled by the `JVal` type together with JS truthiness, property lookup
and array indexing.  Platform primitives used by the code (the WHATWG `URL`
constructor, `JSON.stringify`, number-to-string coercion, `String.prototype`
methods) are modelled by explicitly named functions below, each carrying a
doc comment saying what it models.
-/

namespace RedditPost

/-- A JavaScript (JSON-like) value, as received from the provider and
inspected by the response-normalization code.  Numbers are modelled as
rationals (JS numbers in these payloads are decimal). -/
inductive JVal where
  | null : JVal
  | bool : Bool → JVal
  | num : ℚ → JVal
  | str : String → JVal
  | arr : List JVal → JVal
  | obj : List (String × JVal) → JVal

/-- JS truthiness of a value (`null`, `false`, `0`, `""` are falsy; any
array or object is truthy). -/
def truthy : JVal → Bool
  | .null => false
  | .bool b => b
  | .num q => q ≠ 0
  | .str s => !s.isEmpty
  | .arr _ => true
  | .obj _ => true

/-- Property access `v.k`: `none` models JS `undefined` (missing key or
access on a non-object). -/
def jGet : JVal → String → Option JVal
  | .obj fields, k => fields.lookup k
  | _, _ => none

/-- Truthiness of a possibly-`undefined` value. -/
def truthyOpt : Option JVal → Bool
  | some v => truthy v
  | none => false

/-- Array indexing `v[i]`; `none` models `undefined`. -/
def jIdx : JVal → Nat → Option JVal
  | .arr xs, i => xs.get? i
  | _, _ => none

/-- JS `x || y` on a possibly-undefined left operand: the left value when
truthy, otherwise the right one. -/
def jsOr (x y : Option JVal) : Option JVal :=
  if truthyOpt x then x else y

/-! ## Models of JavaScript string primitives -/

/-- ASCII whitespace; the characters `String.prototype.trim` strips in the
inputs this program reads. -/
def isWsChar (c : Char) : Bool :=
  c = ' ' || c = '\t' || c = '\n' || c = '\r'

/-- Models `String.prototype.trim()`. -/
def jsTrim (s : String) : String :=
  ⟨((s.data.dropWhile isWsChar).reverse.dropWhile isWsChar).reverse⟩

/-- Splitting a character list at every occurrence of `c`, keeping empty
segments; models `String.prototype.split`. -/
def splitChar (c : Char) : List Char → List (List Char)
  | [] => [[]]
  | h :: t =>
    match splitChar c t with
    | [] => [[]]
    | seg :: rest => if h = c then [] :: seg :: rest else (h :: seg) :: rest

/-- Models `content.split('\n')`. -/
def jsSplitLines (s : String) : List String :=
  (splitChar '\n' s.data).map String.mk

/-- Does the second list start with the first? -/
def listHasPre : List Char → List Char → Bool
  | [], _ => true
  | _ :: _, [] => false
  | n :: ns, h :: hs => n = h && listHasPre ns hs

/-- Models `String.prototype.startsWith`. -/
def strStarts (s p : String) : Bool := listHasPre p.data s.data

/-- Is the first list a contiguous sublist of the second? -/
def listHasSub (needle : List Char) : List Char → Bool
  | [] => needle.isEmpty
  | h :: hs => listHasPre needle (h :: hs) || listHasSub needle hs

/-- Models `String.prototype.includes`. -/
def strHasSub (s sub : String) : Bool := listHasSub sub.data s.data

/-- Models the "ends with" check of the spec (`String.prototype.endsWith`). -/
def strEnds (s sfx : String) : Bool := listHasPre sfx.data.reverse s.data.reverse

/-- Decimal representation of a natural number; models JavaScript's
number-to-string coercion (`${n}` in a template literal) for the
non-negative integers that appear in cache keys and messages. -/
def natToDec (n : Nat) : String :=
  ⟨if n = 0 then ['0'] else ((Nat.digits 10 n).map Nat.digitChar).reverse⟩

/-- Decimal representation of an integer. -/
def intToDec (i : Int) : String :=
  if i < 0 then "-" ++ natToDec i.natAbs else natToDec i.toNat

/-- Truthiness of an optional string field (JS: `null`/`undefined` and `""`
are falsy). -/
def optStrTruthy : Option String → Bool
  | some s => !s.isEmpty
  | none => false

/-- Truthiness of an optional numeric field (JS: `null`/`undefined` and `0`
are falsy). -/
def optNatTruthy : Option Nat → Bool
  | some n => n ≠ 0
  | none => false

/-! ## Delay sampling (`getRandomDelay`, src/unnamed/part_004 lines 352-357)

```js
function getRandomDelay(delayFrom, delayUpTo) {
  const from = parseInt(delayFrom) || 0;
  const upTo = parseInt(delayUpTo) || 0;
  if (from >= upTo) return from;
  return Math.floor(Math.random() * (upTo - from + 1)) + from;
}
```
-/

/-- `getRandomDelay`.  For the integer inputs the claims range over,
`parseInt(x) || 0` is the identity (`|| 0` only replaces `NaN`, and
`0 || 0` is `0`), so the arguments are modelled as integers directly.
`rand` models the value returned by `Math.random()`, a number in `[0,1)`. -/
def getRandomDelay (delayFrom delayUpTo : Int) (rand : ℚ) : Int :=
  if delayFrom ≥ delayUpTo then delayFrom
  else ⌊rand * ((delayUpTo : ℚ) - (delayFrom : ℚ) + 1)⌋ + delayFrom

/-- C6: for every pair of integers `delayFrom ≤ delayUpTo`, every delay
sampled by `getRandomDelay` lies in the inclusive range
`[delayFrom, delayUpTo]`; and for every pair with `delayFrom ≥ delayUpTo`,
the sampled delay equals `delayFrom`. -/
theorem getRandomDelay_range (delayFrom delayUpTo : Int) (rand : ℚ)
    (h0 : 0 ≤ rand) (h1 : rand < 1) :
    (delayFrom ≤ delayUpTo →
      delayFrom ≤ getRandomDelay delayFrom delayUpTo rand ∧
      getRandomDelay delayFrom delayUpTo rand ≤ delayUpTo) ∧
    (delayFrom ≥ delayUpTo → getRandomDelay delayFrom delayUpTo rand = delayFrom) := by
  constructor
  · intro hle
    rcases eq_or_lt_of_le hle with heq | hlt
    · subst heq
      simp [getRandomDelay]
    · have hnot : ¬ delayFrom ≥ delayUpTo := not_le.mpr hlt
      set n : ℚ := (delayUpTo : ℚ) - (delayFrom : ℚ) + 1 with hn
      have hn0 : 0 < n := by
        have : (delayFrom : ℚ) < (delayUpTo : ℚ) := by exact_mod_cast hlt
        linarith
      have hlow : 0 ≤ ⌊rand * n⌋ := by
        apply Int.floor_nonneg.mpr
        exact mul_nonneg h0 (le_of_lt hn0)
      have hup : ⌊rand * n⌋ < delayUpTo - delayFrom + 1 := by
        apply Int.floor_lt.mpr
        have hrn : rand * n < n := mul_lt_of_lt_one_left hn0 h1
        have : ((delayUpTo - delayFrom + 1 : Int) : ℚ) = n := by
          push_cast
          ring
        rw [this]
        exact hrn
      constructor
      · simp only [getRandomDelay, if_neg hnot, ← hn]
        omega
      · simp only [getRandomDelay, if_neg hnot, ← hn]
        omega
  · intro hge
    simp [getRandomDelay, hge]

/-- Witness for C6: the sampled delay at `delayFrom = 2`, `delayUpTo = 5`,
`rand = 1/3` lies in `[2, 5]`. -/
theorem getRandomDelay_range_witness :
    2 ≤ getRandomDelay 2 5 (1/3) ∧ getRandomDelay 2 5 (1/3) ≤ 5 :=
  (getRandomDelay_range 2 5 (1/3) (by norm_num) (by norm_num)).1 (by norm_num)

/-! ## Accounts and the proxy agent factory
(`getProxyAgents`, src/unnamed/part_004 lines 14-59)

An account row of the `accounts` table (src/db/database.js): nullable
columns are `Option`s.  The numeric `id` (SERIAL) and `proxy_port`
(INTEGER) are naturals. -/

/-- An account credential record as returned by `getAccountById`. -/
structure Account where
  id : Nat
  client_id : Option String := none
  client_secret : Option String := none
  refresh_token : Option String := none
  proxy_type : Option String := none
  proxy_host : Option String := none
  proxy_port : Option Nat := none
  proxy_username : Option String := none
  proxy_password : Option String := none
  deriving DecidableEq

/-- JS `o || d` for an optional string. -/
def jsOrStr (o : Option String) (d : String) : String :=
  match o with
  | some s => if s.isEmpty then d else s
  | none => d

/-- The constructor class of an agent object (`SocksProxyAgent`,
`HttpProxyAgent`, `HttpsProxyAgent`). -/
inductive AgentClass where
  | socksProxyAgent
  | httpProxyAgent
  | httpsProxyAgent
  deriving DecidableEq

/-- One transport agent object.  `ref` is an allocation token modelling
JavaScript object identity: each `new …ProxyAgent(...)` yields a fresh
token, so two agents are reference-equal iff their `ref`s agree. -/
structure ProxyAgent where
  ref : Nat
  cls : AgentClass
  url : String
  deriving DecidableEq

/-- The `{ httpAgent, httpsAgent }` pair returned by `getProxyAgents`
(`none` models `null`). -/
structure AgentsPair where
  httpAgent : Option ProxyAgent
  httpsAgent : Option ProxyAgent
  deriving DecidableEq

/-- The module-level `agentCache` map plus the allocation counter that
models object identity. -/
structure AgentCache where
  entries : List (String × AgentsPair)
  nextRef : Nat
  deriving DecidableEq

/-- The cache at process start. -/
def emptyAgentCache : AgentCache := ⟨[], 0⟩

/-- The cache key
`` `${account.id}-${account.proxy_type || 'http'}-${account.proxy_host}-${account.proxy_port}` ``. -/
def proxyCacheKey (a : Account) : String :=
  natToDec a.id ++ "-" ++ jsOrStr a.proxy_type "http" ++ "-" ++
    a.proxy_host.getD "" ++ "-" ++ natToDec (a.proxy_port.getD 0)

/-- The proxy URL
`` `${proxyType}://[user:pass@]${host}:${port}` `` built by the factory. -/
def proxyUrlOf (a : Account) : String :=
  jsOrStr a.proxy_type "http" ++ "://" ++
    (if optStrTruthy a.proxy_username && optStrTruthy a.proxy_password then
      a.proxy_username.getD "" ++ ":" ++ a.proxy_password.getD "" ++ "@"
    else "") ++
    a.proxy_host.getD "" ++ ":" ++ natToDec (a.proxy_port.getD 0)

/-- `getProxyAgents(account)`: returns `{null, null}` when no proxy is
configured; otherwise returns the cached pair for the key, or allocates a
fresh pair (one shared agent for `socks5`, two distinct agents otherwise)
and caches it. -/
def getProxyAgents (account : Option Account) (st : AgentCache) :
    AgentsPair × AgentCache :=
  match account with
  | none => (⟨none, none⟩, st)
  | some a =>
    if !optStrTruthy a.proxy_host || !optNatTruthy a.proxy_port then
      (⟨none, none⟩, st)
    else
      let cacheKey := proxyCacheKey a
      match st.entries.lookup cacheKey with
      | some agents => (agents, st)
      | none =>
        let proxyType := jsOrStr a.proxy_type "http"
        let proxyUrl := proxyUrlOf a
        if proxyType = "socks5" then
          let agent : ProxyAgent := ⟨st.nextRef, .socksProxyAgent, proxyUrl⟩
          let agents : AgentsPair := ⟨some agent, some agent⟩
          (agents, ⟨st.entries ++ [(cacheKey, agents)], st.nextRef + 1⟩)
        else
          let agents : AgentsPair :=
            ⟨some ⟨st.nextRef, .httpProxyAgent, proxyUrl⟩,
             some ⟨st.nextRef + 1, .httpsProxyAgent, proxyUrl⟩⟩
          (agents, ⟨st.entries ++ [(cacheKey, agents)], st.nextRef + 2⟩)

/-! Injectivity of the decimal rendering, needed to separate cache keys
that differ only in the port. -/

lemma digitChar_inj {d e : Nat} (hd : d < 10) (he : e < 10)
    (h : Nat.digitChar d = Nat.digitChar e) : d = e := by
  interval_cases d <;> interval_cases e <;> revert h <;> decide

lemma map_digitChar_inj : ∀ (l1 l2 : List Nat), (∀ d ∈ l1, d < 10) →
    (∀ d ∈ l2, d < 10) → l1.map Nat.digitChar = l2.map Nat.digitChar → l1 = l2
  | [], [], _, _, _ => rfl
  | [], _ :: _, _, _, h => by simp at h
  | _ :: _, [], _, _, h => by simp at h
  | a :: l1, b :: l2, h1, h2, h => by
    simp only [List.map_cons, List.cons.injEq] at h
    have hab : a = b := digitChar_inj (h1 a (by simp)) (h2 b (by simp)) h.1
    have hl : l1 = l2 :=
      map_digitChar_inj l1 l2 (fun d hd => h1 d (by simp [hd]))
        (fun d hd => h2 d (by simp [hd])) h.2
    rw [hab, hl]

lemma natToDec_inj {m n : Nat} (h : natToDec m = natToDec n) : m = n := by
  have h' := congrArg String.data h
  simp only [natToDec] at h'
  by_cases hm : m = 0 <;> by_cases hn : n = 0
  · omega
  · rw [if_pos hm, if_neg hn] at h'
    have hdig : (Nat.digits 10 n).map Nat.digitChar = ['0'] := by
      have := congrArg List.reverse h'
      simpa using this.symm
    have : Nat.digits 10 n = [0] :=
      map_digitChar_inj _ [0] (fun d hd => Nat.digits_lt_base (by norm_num) hd)
        (by simp) (by simpa using hdig)
    have := congrArg (Nat.ofDigits 10) this
    rw [Nat.ofDigits_digits] at this
    simp [Nat.ofDigits] at this
    omega
  · rw [if_neg hm, if_pos hn] at h'
    have hdig : (Nat.digits 10 m).map Nat.digitChar = ['0'] := by
      have := congrArg List.reverse h'
      simpa using this
    have : Nat.digits 10 m = [0] :=
      map_digitChar_inj _ [0] (fun d hd => Nat.digits_lt_base (by norm_num) hd)
        (by simp) (by simpa using hdig)
    have := congrArg (Nat.ofDigits 10) this
    rw [Nat.ofDigits_digits] at this
    simp [Nat.ofDigits] at this
    omega
  · rw [if_neg hm, if_neg hn] at h'
    have hrev := congrArg List.reverse h'
    simp only [List.reverse_reverse] at hrev
    have hdig : Nat.digits 10 m = Nat.digits 10 n :=
      map_digitChar_inj _ _ (fun d hd => Nat.digits_lt_base (by norm_num) hd)
        (fun d hd => Nat.digits_lt_base (by norm_num) hd) hrev
    exact Nat.digits_inj_iff.mp hdig

lemma string_data_append (s t : String) : (s ++ t).data = s.data ++ t.data := rfl

lemma string_append_cancel {s t u : String} (h : s ++ t = s ++ u) : t = u := by
  have hd := congrArg String.data h
  rw [string_data_append, string_data_append] at hd
  have hlist := List.append_cancel_left hd
  cases t
  cases u
  exact congrArg String.mk hlist

/-- Cache keys of two accounts that differ only in the proxy port differ. -/
lemma proxyCacheKey_port_ne (a : Account) (port' : Nat)
    (h : a.proxy_port.getD 0 ≠ port') :
    proxyCacheKey { a with proxy_port := some port' } ≠ proxyCacheKey a := by
  intro heq
  unfold proxyCacheKey at heq
  exact h (natToDec_inj (string_append_cancel heq)).symm

/-- C8: for every account with a configured proxy, two calls to
`getProxyAgents` with the same account id, proxy type, host and port —
even with different proxy username/password, which are not part of the
cache key — return the identical cached pair of agents, while a call
differing in the port returns a distinct (freshly allocated) pair. -/
theorem getProxyAgents_cache (a : Account) (port' : Nat) (u p : Option String)
    (hhost : optStrTruthy a.proxy_host = true)
    (hport : optNatTruthy a.proxy_port = true)
    (hport' : port' ≠ 0)
    (hne : a.proxy_port ≠ some port') :
    ((getProxyAgents (some { a with proxy_username := u, proxy_password := p })
        (getProxyAgents (some a) emptyAgentCache).2).1 =
      (getProxyAgents (some a) emptyAgentCache).1) ∧
    ((getProxyAgents (some { a with proxy_port := some port' })
        (getProxyAgents (some a) emptyAgentCache).2).1 ≠
      (getProxyAgents (some a) emptyAgentCache).1) := by
  obtain ⟨q, hq⟩ : ∃ q, a.proxy_port = some q := by
    cases h : a.proxy_port with
    | none => rw [h] at hport; simp [optNatTruthy] at hport
    | some q => exact ⟨q, rfl⟩
  have hqne : q ≠ port' := by
    intro hcontr
    exact hne (by rw [hq, hcontr])
  have hkeyne : proxyCacheKey { a with proxy_port := some port' } ≠ proxyCacheKey a := by
    apply proxyCacheKey_port_ne
    rw [hq]
    simpa using hqne
  have hbeq : (proxyCacheKey { a with proxy_port := some port' } ==
      proxyCacheKey a) = false := beq_eq_false_iff_ne.mpr hkeyne
  have hkey2 : proxyCacheKey { a with proxy_username := u, proxy_password := p } =
      proxyCacheKey a := rfl
  have hguard : (!optStrTruthy a.proxy_host || !optNatTruthy a.proxy_port) = false := by
    simp [hhost, hport]
  have hguard' : (!optStrTruthy a.proxy_host || !optNatTruthy (some port' : Option Nat)) = false := by
    simp [hhost, optNatTruthy, hport']
  by_cases hsocks : jsOrStr a.proxy_type "http" = "socks5" <;>
    simp [getProxyAgents, emptyAgentCache, hguard, hguard', hsocks, hkey2, hbeq,
      List.lookup]

/-- A concrete proxied account, used by witnesses. -/
def acctC8 : Account :=
  { id := 1, client_id := some "cid", client_secret := some "sec",
    refresh_token := some "rtok", proxy_type := some "http",
    proxy_host := some "p.example", proxy_port := some 8080,
    proxy_username := some "u", proxy_password := some "s" }

/-- Witness for C8: the concrete account `acctC8`, re-queried with changed
credentials, hits the cache; queried with port 1081 it gets a fresh pair. -/
theorem getProxyAgents_cache_witness :
    ((getProxyAgents
        (some { acctC8 with proxy_username := some "u2", proxy_password := some "s2" })
        (getProxyAgents (some acctC8) emptyAgentCache).2).1 =
      (getProxyAgents (some acctC8) emptyAgentCache).1) ∧
    ((getProxyAgents (some { acctC8 with proxy_port := some 1081 })
        (getProxyAgents (some acctC8) emptyAgentCache).2).1 ≠
      (getProxyAgents (some acctC8) emptyAgentCache).1) :=
  getProxyAgents_cache acctC8 1081 (some "u2") (some "s2")
    (by decide) (by decide) (by decide) (by decide)

/-! ## The text-file parser (`parseTxtFile`, src/unnamed/part_003)

```js
const lines = content.split('\n').map(line => line.trim());
```
then a per-line state machine over an optional current block, flushing a
block at each blank line and at end of input. -/

/-- A finished post record as returned by `parseTxtFile`. -/
structure ParsedPost where
  id : Nat
  subreddit : String
  title : String
  url : Option String
  flair_id : Option String
  flair_text : Option String
  hasUrl : Bool
  hasTitle : Bool
  hasSubreddit : Bool
  isValid : Bool
  deriving DecidableEq

/-- The in-progress block (`currentPost`); `none` fields model `null`. -/
structure CurrentPost where
  subreddit : String
  title : Option String
  url : Option String
  flair_id : Option String
  flair_text : Option String
  deriving DecidableEq

/-- Scan for the first `]`: `some rest` drops everything up to and
including it.  Helper for the lazy regex `/\[.*?\]/g`. -/
def dropThroughRB : List Char → Option (List Char)
  | [] => none
  | c :: rest => if c = ']' then some rest else dropThroughRB rest

lemma dropThroughRB_length : ∀ {l l' : List Char},
    dropThroughRB l = some l' → l'.length < l.length := by
  intro l
  induction l with
  | nil => intro l' h; simp [dropThroughRB] at h
  | cons c rest ih =>
    intro l' h
    simp only [dropThroughRB] at h
    by_cases hc : c = ']'
    · rw [if_pos hc] at h
      obtain rfl := Option.some.inj h
      simp [Nat.lt_succ_self]
    · rw [if_neg hc] at h
      exact Nat.lt_trans (ih h) (by simp)

/-- Models `line.replace(/\[.*?\]/g, '')`: each lazy match runs from a `[`
to the first following `]`; a `[` with no later `]` does not match. -/
def stripBrackets : List Char → List Char
  | [] => []
  | c :: rest =>
    if c = '[' then
      match hdr : dropThroughRB rest with
      | some rest' => stripBrackets rest'
      | none => c :: stripBrackets rest
    else c :: stripBrackets rest
termination_by l => l.length
decreasing_by
  · exact Nat.lt_trans (dropThroughRB_length hdr) (Nat.lt_succ_self _)
  · exact Nat.lt_succ_self _
  · exact Nat.lt_succ_self _

/-- `currentPost.x || null`. -/
def jsOrNullStr (o : Option String) : Option String :=
  match o with
  | some s => if s.isEmpty then none else some s
  | none => none

/-- `o && o.trim().length > 0` for an optional string field. -/
def hasValidOptStr (o : Option String) : Bool :=
  optStrTruthy o && !(jsTrim (o.getD "")).isEmpty

/-- Flush a finished block: validate, and append the post record only when
the subreddit is non-blank (src/unnamed/part_003 lines 17-33; lines 89-106
are the same code run at end of input). -/
def pushPost (cp : CurrentPost) (posts : List ParsedPost) : List ParsedPost :=
  let hasValidSubreddit := !cp.subreddit.isEmpty && !(jsTrim cp.subreddit).isEmpty
  let hasValidTitle := hasValidOptStr cp.title
  if hasValidSubreddit then
    posts ++ [{
      id := posts.length + 1,
      subreddit := jsTrim cp.subreddit,
      title := if optStrTruthy cp.title then jsTrim (cp.title.getD "") else "",
      url := if optStrTruthy cp.url then some (jsTrim (cp.url.getD "")) else none,
      flair_id := jsOrNullStr cp.flair_id,
      flair_text := jsOrNullStr cp.flair_text,
      hasUrl := hasValidOptStr cp.url,
      hasTitle := hasValidTitle,
      hasSubreddit := hasValidSubreddit,
      isValid := hasValidSubreddit && hasValidTitle }]
  else posts

/-- One iteration of the `parseTxtFile` line loop
(src/unnamed/part_003 lines 10-86). -/
def stepLine (line : String) (cp : Option CurrentPost) (posts : List ParsedPost) :
    Option CurrentPost × List ParsedPost :=
  if line.isEmpty then
    match cp with
    | some c => (none, pushPost c posts)
    | none => (none, posts)
  else if strStarts line "#" then
    (cp, posts)
  else if strStarts line "[" &&
      (strHasSub line "USE ONLY PHOTO" || strHasSub line "[NO NSFW]" ||
       strHasSub line "USE ONLY PHOTO") then
    -- standalone bracketed note lines are skipped (the third disjunct is a
    -- duplicate in the source)
    (cp, posts)
  else
    match cp with
    | none =>
      (some { subreddit := jsTrim ⟨stripBrackets line.data⟩,
              title := none, url := none, flair_id := none, flair_text := none },
       posts)
    | some c =>
      if !optStrTruthy c.title then
        -- the source guards `if (line && line.trim().length > 0)` before
        -- using `line.trim()`, else sets the empty title
        let t := if !line.isEmpty && !(jsTrim line).isEmpty then jsTrim line else ""
        (some { c with title := some t }, posts)
      else if !optStrTruthy c.url && strStarts line "http" then
        (some { c with url := some line }, posts)
      else if strStarts line "flair:" then
        -- `line.replace('flair:', '')` replaces the first occurrence, which
        -- the `startsWith` guard places at position 0
        (some { c with flair_text := some (jsTrim ⟨line.data.drop 6⟩) }, posts)
      else if strStarts line "flair_id:" then
        (some { c with flair_id := some (jsTrim ⟨line.data.drop 9⟩) }, posts)
      else
        (some c, posts)

/-- The line loop of `parseTxtFile`, flushing the last block at end of
input (src/unnamed/part_003 lines 88-107). -/
def parseLines : List String → Option CurrentPost → List ParsedPost → List ParsedPost
  | [], cp, posts =>
    match cp with
    | some c => pushPost c posts
    | none => posts
  | line :: rest, cp, posts =>
    let s := stepLine line cp posts
    parseLines rest s.1 s.2

/-- `parseTxtFile` applied to the file contents. -/
def parseTxtFile (content : String) : List ParsedPost :=
  parseLines ((jsSplitLines content).map jsTrim) none []

/-- A record appended by `pushPost` has a validated, non-blank subreddit
and its validity flag reduces to its title flag. -/
lemma pushPost_mem {r : ParsedPost} {c : CurrentPost} {posts : List ParsedPost}
    (h : r ∈ pushPost c posts) :
    r ∈ posts ∨ (r.hasSubreddit = true ∧ r.subreddit.isEmpty = false ∧
      r.isValid = r.hasTitle) := by
  simp only [pushPost] at h
  by_cases hs : (!c.subreddit.isEmpty && !(jsTrim c.subreddit).isEmpty) = true
  · rw [if_pos hs] at h
    rcases List.mem_append.mp h with h' | h'
    · exact Or.inl h'
    · simp only [List.mem_singleton] at h'
      subst h'
      refine Or.inr ⟨hs, ?_, ?_⟩
      · have := (Bool.and_eq_true _ _).mp hs
        simpa using this.2
      · simp [hs]
  · rw [if_neg hs] at h
    exact Or.inl h

/-- `pushPost` keeps the ids consecutive: the appended record gets id
`posts.length + 1`. -/
lemma pushPost_ids {c : CurrentPost} {posts : List ParsedPost}
    (h : posts.map (fun r => r.id) = List.range' 1 posts.length) :
    (pushPost c posts).map (fun r => r.id) =
      List.range' 1 (pushPost c posts).length := by
  simp only [pushPost]
  by_cases hs : (!c.subreddit.isEmpty && !(jsTrim c.subreddit).isEmpty) = true
  · rw [if_pos hs]
    simp only [List.map_append, List.map_cons, List.map_nil, List.length_append,
      List.length_cons, List.length_nil]
    rw [h, List.range'_1_concat]
    simp [Nat.add_comm]
  · rw [if_neg hs]
    exact h

/-- One line-step either leaves the accumulated records unchanged or
flushes the current block through `pushPost`. -/
lemma stepLine_posts (line : String) (cp : Option CurrentPost)
    (posts : List ParsedPost) :
    (stepLine line cp posts).2 = posts ∨
      ∃ c, (stepLine line cp posts).2 = pushPost c posts := by
  unfold stepLine
  split
  · cases cp with
    | some c => exact Or.inr ⟨c, rfl⟩
    | none => exact Or.inl rfl
  · split
    · exact Or.inl rfl
    · split
      · exact Or.inl rfl
      · cases cp with
        | none => exact Or.inl rfl
        | some c =>
          refine Or.inl ?_
          repeat' split
          all_goals rfl

/-- The loop invariant of `parseLines`: validated subreddits, validity
equal to the title flag, and consecutive ids. -/
lemma parseLines_inv : ∀ (lines : List String) (cp : Option CurrentPost)
    (posts : List ParsedPost),
    (∀ r ∈ posts, r.hasSubreddit = true ∧ r.subreddit.isEmpty = false ∧
      r.isValid = r.hasTitle) →
    posts.map (fun r => r.id) = List.range' 1 posts.length →
    (∀ r ∈ parseLines lines cp posts, r.hasSubreddit = true ∧
      r.subreddit.isEmpty = false ∧ r.isValid = r.hasTitle) ∧
    (parseLines lines cp posts).map (fun r => r.id) =
      List.range' 1 (parseLines lines cp posts).length
  | [], cp, posts, hmem, hids => by
    cases cp with
    | none => exact ⟨hmem, hids⟩
    | some c =>
      refine ⟨?_, pushPost_ids hids⟩
      intro r hr
      rcases pushPost_mem hr with h | h
      · exact hmem r h
      · exact h
  | line :: rest, cp, posts, hmem, hids => by
    simp only [parseLines]
    rcases stepLine_posts line cp posts with h | ⟨c, h⟩
    · exact parseLines_inv rest _ _ (by rw [h]; exact hmem) (by rw [h]; exact hids)
    · refine parseLines_inv rest _ _ ?_ (by rw [h]; exact pushPost_ids hids)
      rw [h]
      intro r hr
      rcases pushPost_mem hr with h' | h'
      · exact hmem r h'
      · exact h'

/-- C10: every record returned by `parseTxtFile` has a non-empty,
validated subreddit (`hasSubreddit = true`; blocks whose subreddit line is
blank after bracket-stripping are dropped entirely), so `isValid` equals
`hasTitle` on every returned record, and the records' ids are the
consecutive integers `1..N` in file order. -/
theorem parseTxtFile_invariants (content : String) :
    (∀ r ∈ parseTxtFile content, r.hasSubreddit = true ∧
      r.subreddit.isEmpty = false ∧ r.isValid = r.hasTitle) ∧
    (parseTxtFile content).map (fun r => r.id) =
      List.range' 1 (parseTxtFile content).length :=
  parseLines_inv _ none [] (by simp) (by simp)

/-- Witness for C10: a two-block sample file (the second block has an
empty title) parses to records with ids `[1, 2]`, and the invariants hold
on its first record. -/
theorem parseTxtFile_invariants_witness :
    ((parseTxtFile "pics\nHello world\n\nfunny").map (fun r => r.id) =
      List.range' 1 (parseTxtFile "pics\nHello world\n\nfunny").length) ∧
    ∀ r ∈ parseTxtFile "pics\nHello world\n\nfunny", r.hasSubreddit = true ∧
      r.subreddit.isEmpty = false ∧ r.isValid = r.hasTitle :=
  ⟨(parseTxtFile_invariants "pics\nHello world\n\nfunny").2,
   (parseTxtFile_invariants "pics\nHello world\n\nfunny").1⟩

/-! ## JavaScript value coercions used by the submission code -/

/-- Models JavaScript string coercion (`String(v)`, template literals,
`new Error(v)`).  Only primitive values are coerced on the paths the
claims exercise; fractional numbers and arrays are rendered
approximately (comment: `String([...])` joins elements, which no code
path here observes). -/
def jsString : JVal → String
  | .null => "null"
  | .bool b => if b then "true" else "false"
  | .num q => if q.den = 1 then intToDec q.num
      else intToDec q.num ++ "/" ++ natToDec q.den
  | .str s => s
  | .arr _ => ""
  | .obj _ => "[object Object]"

/-- A possibly-`undefined` value in a template literal. -/
def jsTemplate : Option JVal → String
  | some v => jsString v
  | none => "undefined"

/-- `new Error(v)`'s message: an `undefined` argument leaves the message
empty, any other value is string-coerced. -/
def errMsgOf : Option JVal → String
  | some v => jsString v
  | none => ""

mutual

/-- Models `JSON.stringify` (string escaping is not modelled; no claim
observes stringified output containing quotes or backslashes). -/
def jsonStringify : JVal → String
  | .null => "null"
  | .bool b => if b then "true" else "false"
  | .num q => if q.den = 1 then intToDec q.num
      else intToDec q.num ++ "/" ++ natToDec q.den
  | .str s => "\"" ++ s ++ "\""
  | .arr xs => "[" ++ jsonStringifyArr xs ++ "]"
  | .obj fs => "\x7b" ++ jsonStringifyObj fs ++ "\x7d"

/-- Comma-joined stringification of an array's elements. -/
def jsonStringifyArr : List JVal → String
  | [] => ""
  | [x] => jsonStringify x
  | x :: rest => jsonStringify x ++ "," ++ jsonStringifyArr rest

/-- Comma-joined stringification of an object's fields. -/
def jsonStringifyObj : List (String × JVal) → String
  | [] => ""
  | [(k, v)] => "\"" ++ k ++ "\":" ++ jsonStringify v
  | (k, v) :: rest => "\"" ++ k ++ "\":" ++ jsonStringify v ++ "," ++
      jsonStringifyObj rest

end

/-- `Math.ceil(v)` rendered in a template for the rate-limit message; the
rate-limit hint is numeric whenever present. -/
def ceilStr : Option JVal → String
  | some (.num q) => intToDec ⌈q⌉
  | _ => "NaN"

/-- `v?.k` on a possibly-undefined object. -/
def jChain (v : Option JVal) (k : String) : Option JVal :=
  match v with
  | some x => jGet x k
  | none => none

/-! ## Errors, transport outcomes and network calls -/

/-- A JavaScript `Error` as inspected by the catch blocks.  `code` models
`error.code` (transport error codes such as `ECONNREFUSED`); `status` and
`responseData` model `error.response?.status` and `error.response?.data`
of an axios error; `redditResponse` models the diagnostic attachment
`error.redditResponse = response.data` the submission code sets before
throwing. -/
structure JsError where
  message : String
  code : Option String := none
  status : Option Nat := none
  responseData : Option JVal := none
  redditResponse : Option JVal := none

/-- The outcome of one `axios.post`: a 2xx JSON body, or a raised error. -/
inductive AxiosResult where
  | ok (data : JVal)
  | err (e : JsError)

/-- A network request made by the pipeline.  The `getAccountById` database
lookup is not a network call in the sense of the spec. -/
inductive NetCall where
  | tokenExchange
  | submitPost
  deriving DecidableEq

/-! ## The token acquirer (`getAccessToken`, src/unnamed/part_004 lines 61-135) -/

/-- Outcome of `getAccessToken`: the extracted `access_token` field, a
thrown `Error`, or an uncaught `ReferenceError` raised inside the catch
block itself. -/
inductive TokenOutcome where
  | ok (tok : Option JVal)
  | thrown (e : JsError)
  | referenceError

/-- The catch block of `getAccessToken` (lines 116-134).  Its first branch
interpolates `account.proxy_host` and `account.proxy_port` into the
"Proxy connection failed" template — but `account` is a `const` declared
inside the `try` block and is not in scope in the catch block, so
evaluating that template raises `ReferenceError: account is not defined`
instead of producing the message. -/
def tokenCatch (e : JsError) : TokenOutcome :=
  if e.code = some "ECONNREFUSED" || e.code = some "ETIMEDOUT" ||
      strHasSub e.message "proxy" then
    .referenceError
  else if e.status = some 401 then
    .thrown { message := "Unauthorized: Invalid refresh_token, client_id, or client_secret. Please verify your credentials and get a new refresh_token if needed." }
  else if truthyOpt e.responseData then
    .thrown { message := "Failed to get access token: " ++
      jsonStringify ((e.responseData).getD .null) }
  else
    .thrown { message :=
      if e.message.isEmpty then "Failed to get access token" else e.message }

/-- `getAccessToken`, with the account lookup's result and the
token-endpoint POST's outcome supplied as parameters.  Returns the outcome
together with the network calls made: the token POST happens only after
the credential checks pass.  Errors thrown inside the `try` block are
routed through the catch block (`tokenCatch`), as in the source. -/
def getAccessToken (account : Option Account) (tokenHttp : AxiosResult) :
    TokenOutcome × List NetCall :=
  match account with
  | none => (tokenCatch { message := "Account not found" }, [])
  | some a =>
    if !optStrTruthy a.client_id || !optStrTruthy a.client_secret then
      (tokenCatch { message := "Missing client_id or client_secret in account configuration" }, [])
    else if !optStrTruthy a.refresh_token ||
        a.refresh_token = some "YOUR_REFRESH_TOKEN" then
      (tokenCatch { message := "Invalid or missing refresh_token. Please get a valid refresh_token using get-refresh-token.js" }, [])
    else
      match tokenHttp with
      | .ok d => (.ok (jGet d "access_token"), [.tokenExchange])
      | .err e => (tokenCatch e, [.tokenExchange])

/-! ## The submission executor (`uploadPost`, src/unnamed/part_004 lines 137-350) -/

/-- The `protocol`/`hostname` pair of a parsed URL object. -/
structure UrlObj where
  protocol : String
  hostname : String
  deriving DecidableEq

/-- A character allowed after the first letter of a URL scheme. -/
def isSchemeChar (c : Char) : Bool :=
  c.isAlpha || c.isDigit || c = '+' || c = '-' || c = '.'

/-- Models the WHATWG `URL` constructor used by `new URL(s)` for the
absolute URLs this code validates: a scheme (a letter then scheme
characters) followed by `:`; with `//` the hostname runs to the next
delimiter, without it the hostname is empty.  `none` models the
constructor throwing. -/
def urlParse (s : String) : Option UrlObj :=
  match s.data with
  | [] => none
  | c :: rest =>
    if !c.isAlpha then none
    else
      match rest.dropWhile isSchemeChar with
      | ':' :: tail =>
        let protocol := String.mk (c :: rest.takeWhile isSchemeChar ++ [':'])
        match tail with
        | '/' :: '/' :: hostRest =>
          let host := hostRest.takeWhile
            (fun ch => ch ≠ '/' && ch ≠ '?' && ch ≠ '#' && ch ≠ ':')
          some ⟨protocol, String.mk host⟩
        | _ => some ⟨protocol, ""⟩
      | _ => none

/-- The urlencoded submit payload (lines 155-162): `kind` is `link` when a
URL is present, `self` otherwise, and at most one flair selector is sent,
`flair_id` taking precedence. -/
structure SubmitPayload where
  sr : String
  title : String
  kind : String
  url : Option String
  flair_id : Option String
  flair_text : Option String
  deriving DecidableEq

/-- `postData` as built by `uploadPost`. -/
def buildPayload (post : ParsedPost) : SubmitPayload :=
  { sr := post.subreddit,
    title := post.title,
    kind := if optStrTruthy post.url then "link" else "self",
    url := if optStrTruthy post.url then post.url else none,
    flair_id := if optStrTruthy post.flair_id then post.flair_id else none,
    flair_text :=
      if optStrTruthy post.flair_text && !optStrTruthy post.flair_id then
        post.flair_text
      else none }

/-- The success value `{success, postId, name, url}` returned by
`uploadPost`.  `none` models a JS `undefined` field, `JVal.null` a JS
`null`. -/
structure SubmitResult where
  success : Bool
  postId : Option JVal
  name : Option JVal
  url : String

/-- The first "redirect" instruction in a jquery envelope: an entry
`[_, _, "call", [urlString, ...]]` whose URL contains `reddit.com` and
`/comments/` (lines 216-228). -/
def findRedirectUrl : List JVal → Option String
  | [] => none
  | item :: rest =>
    match item with
    | .arr fields =>
      if fields.length ≥ 4 then
        match fields.get? 2, fields.get? 3 with
        | some (.str op), some (.arr (arg :: _)) =>
          if op = "call" then
            match arg with
            | .str s =>
              if strHasSub s "reddit.com" && strHasSub s "/comments/" then some s
              else findRedirectUrl rest
            | _ => findRedirectUrl rest
          else findRedirectUrl rest
        | _, _ => findRedirectUrl rest
      else findRedirectUrl rest
    | _ => findRedirectUrl rest

/-- The regex `/\/comments\/([^\/]+)\//` applied to a URL: the first
`/comments/` occurrence followed by a non-empty slash-free segment and a
closing slash; the scan restarts one character later when an occurrence
has no closing slash. -/
def extractCommentsId (l : List Char) : Option String :=
  match l with
  | [] => none
  | _ :: rest =>
    if listHasPre "/comments/".data l then
      let seg := (l.drop 10).takeWhile (fun c => c ≠ '/')
      let after := (l.drop 10).drop seg.length
      if !seg.isEmpty && after.head? = some '/' then some (String.mk seg)
      else extractCommentsId rest
    else extractCommentsId rest

/-- The first "text" instruction of a jquery envelope whose string payload
looks like an error message: length over 10 and containing one of the
error-indicating substrings (lines 256-270). -/
def findErrorText : List JVal → Option String
  | [] => none
  | item :: rest =>
    match item with
    | .arr fields =>
      if fields.length ≥ 4 then
        match fields.get? 2, fields.get? 3 with
        | some (.str op), some (.arr (arg :: _)) =>
          if op = "text" then
            match arg with
            | .str s =>
              if s.length > 10 && (strHasSub s "error" || strHasSub s "Error" ||
                  strHasSub s "must" || strHasSub s "required") then some s
              else findErrorText rest
            | _ => findErrorText rest
          else findErrorText rest
        | _, _ => findErrorText rest
      else findErrorText rest
    | _ => findErrorText rest

/-- The Shape A error mapping (lines 288-308): known error codes become
user-actionable messages; otherwise the raw message passes through (with
two keyword-based overrides).  A non-string `errors[0][1]` is coerced by
`new Error`. -/
def shapeAErrorMessage (post : ParsedPost) (err0 : JVal) : String :=
  let code : Option String :=
    match jIdx err0 0 with
    | some (.str c) => some c
    | _ => none
  let errorMessage := jsOr (jIdx err0 1) (jIdx err0 0)
  if code = some "SUBREDDIT_NOTALLOWED" then
    "You are not allowed to post in r/" ++ post.subreddit ++
      ". You may need to join the subreddit or meet karma requirements."
  else if code = some "SUBREDDIT_NOEXIST" then
    "Subreddit r/" ++ post.subreddit ++ " does not exist."
  else if code = some "RATELIMIT" then
    "Rate limit exceeded. Please wait before posting again."
  else if code = some "ALREADY_SUB" then
    "This link has already been submitted to r/" ++ post.subreddit ++ "."
  else
    match errorMessage with
    | some (.str m) =>
      if strHasSub m.toLower "url" then
        "Invalid URL: " ++ jsTemplate (post.url.map JVal.str) ++
          ". Please check that the URL is valid and accessible."
      else if strHasSub m.toLower "domain" then
        "Domain not allowed: The URL domain may not be allowed in this subreddit."
      else m
    | v => errMsgOf v

/-- The fixed message thrown for a response matching neither shape. -/
def unexpectedFormatMsg : String :=
  "Unexpected response format from Reddit API. Check console for details."

/-- The response normalization of `uploadPost` (lines 202-333): the body
is treated as a jquery envelope (Shape B) when it has no truthy `json`
property, as Shape A otherwise; anything else raises the
"Unexpected response format" error with the raw body attached. -/
def normalizeSubmitResponse (post : ParsedPost) (data : JVal) :
    Except JsError SubmitResult :=
  if !truthyOpt (jGet data "json") then
    match jGet data "jquery" with
    | some (.arr items) =>
      match jGet data "success" with
      | some (.bool true) =>
        let redirectUrl := findRedirectUrl items
        let ids : JVal × JVal :=
          match redirectUrl with
          | some u =>
            match extractCommentsId u.data with
            | some pid => (.str pid, .str ("t3_" ++ pid))
            | none => (.null, .null)
          | none => (.null, .null)
        .ok { success := true, postId := some ids.1, name := some ids.2,
              url := match redirectUrl with
                | some u => if u.isEmpty then "N/A" else u
                | none => "N/A" }
      | some (.bool false) =>
        let errorMessage :=
          match findErrorText items with
          | some m => m
          | none => "Unknown error from Reddit API"
        let finalMsg :=
          if errorMessage = "Unknown error from Reddit API" then
            "Reddit API returned an error. The subreddit may have restrictions or the post may be invalid."
          else errorMessage
        .error { message := finalMsg, redditResponse := some data }
      | _ => .error { message := unexpectedFormatMsg, redditResponse := some data }
    | _ => .error { message := unexpectedFormatMsg, redditResponse := some data }
  else
    let j := (jGet data "json").getD .null
    match jGet j "errors" with
    | some (.arr (err0 :: _)) =>
      .error { message := shapeAErrorMessage post err0 }
    | _ =>
      if !truthyOpt (jGet j "data") then
        if truthyOpt (jGet data "ratelimit") then
          let m := "Rate limit: You can post again in " ++
            ceilStr (jGet data "ratelimit") ++ " seconds."
          .error { message := m, redditResponse := some data }
        else
          let m := "Failed to submit post - no data returned. The subreddit may have restrictions (karma, account age, verification)."
          .error { message := m, redditResponse := some data }
      else
        let d := (jGet j "data").getD .null
        .ok { success := true, postId := jGet d "id", name := jGet d "name",
              url := "https://reddit.com" ++ jsTemplate (jGet d "permalink") }

/-- Outcome of `uploadPost`: a success result, a thrown `Error`, an
uncaught `ReferenceError` from the catch block's access to the
out-of-scope `account` binding, or an uncaught `TypeError` from indexing
`errors[0]` when the re-extracted errors value has no index 0. -/
inductive UploadOutcome where
  | success (r : SubmitResult)
  | thrown (e : JsError)
  | referenceErrorAccount
  | typeErrorEmptyErrors

/-- The catch block of `uploadPost` (lines 334-349).  As in
`getAccessToken`, the proxy branch reads the out-of-scope `account`
binding and so raises `ReferenceError`; the Reddit-error re-extraction
reads `errors[0][1]`, a `TypeError` when `errors[0]` is `undefined`. -/
def uploadPostCatch (e : JsError) : UploadOutcome :=
  if e.code = some "ECONNREFUSED" || e.code = some "ETIMEDOUT" ||
      strHasSub e.message "proxy" then
    .referenceErrorAccount
  else
    match jChain (jChain e.responseData "json") "errors" with
    | some errs =>
      if truthy errs then
        match jIdx errs 0 with
        | some e0 => .thrown { message := errMsgOf (jsOr (jIdx e0 1) (jIdx e0 0)) }
        | none => .typeErrorEmptyErrors
      else
        .thrown { message :=
          if truthyOpt (jChain e.responseData "message") then
            jsString ((jChain e.responseData "message").getD .null)
          else if !e.message.isEmpty then e.message
          else "Failed to upload post" }
    | none =>
      .thrown { message :=
        if truthyOpt (jChain e.responseData "message") then
          jsString ((jChain e.responseData "message").getD .null)
        else if !e.message.isEmpty then e.message
        else "Failed to upload post" }

/-- The InvalidUrl message (line 151; the inner throw at line 148 is
caught by the same inner catch and rethrown with this message). -/
def invalidUrlMsg (u : String) : String :=
  "Invalid URL: " ++ u ++ ". Please provide a valid URL (e.g., https://www.redgifs.com/watch/...)"

/-- `uploadPost`, with the database lookup and the two network calls
supplied as parameters, returning the outcome together with the network
calls made, in order.  Note the order of operations, from the source: the
access-token exchange (a network POST) happens first; the URL validation
runs only after it; the submit POST runs last.  The `getProxyAgents` calls
only select transport agents (modelled separately above) and do not affect
the outcome. -/
def uploadPost (account : Option Account) (tokenHttp submitHttp : AxiosResult)
    (post : ParsedPost) : UploadOutcome × List NetCall :=
  match getAccessToken account tokenHttp with
  | (.referenceError, calls) =>
    -- the ReferenceError from getAccessToken's catch block carries the
    -- message "account is not defined" and is re-wrapped by uploadPost's
    -- own catch block
    (uploadPostCatch { message := "account is not defined" }, calls)
  | (.thrown e, calls) => (uploadPostCatch e, calls)
  | (.ok _, calls) =>
    let submitPart : UploadOutcome × List NetCall :=
      match submitHttp with
      | .ok data =>
        match normalizeSubmitResponse post data with
        | .ok r => (.success r, calls ++ [.submitPost])
        | .error e => (uploadPostCatch e, calls ++ [.submitPost])
      | .err e => (uploadPostCatch e, calls ++ [.submitPost])
    if optStrTruthy post.url then
      match urlParse (post.url.getD "") with
      | some u =>
        if u.protocol.isEmpty || u.hostname.isEmpty then
          (uploadPostCatch { message := invalidUrlMsg (post.url.getD "") }, calls)
        else submitPart
      | none =>
        (uploadPostCatch { message := invalidUrlMsg (post.url.getD "") }, calls)
    else submitPart

/-! ## Fixtures for the submission claims -/

/-- A valid self post (no URL). -/
def postSelf : ParsedPost :=
  { id := 1, subreddit := "x", title := "T", url := none, flair_id := none,
    flair_text := none, hasUrl := false, hasTitle := true, hasSubreddit := true,
    isValid := true }

/-- A successful token-endpoint response. -/
def tokOk : AxiosResult := .ok (.obj [("access_token", .str "tok")])

/-- The Shape A success fixture: `json.data.id = "abc"`,
`permalink = "/r/x/comments/abc/y/"`. -/
def dataShapeA : JVal :=
  .obj [("json", .obj [("errors", .arr []),
    ("data", .obj [("id", .str "abc"), ("name", .str "t3_abc"),
      ("permalink", .str "/r/x/comments/abc/y/")])])]

/-- The Shape B success fixture: `success = true` with a redirect
instruction whose URL contains `/comments/xyz/`. -/
def dataShapeB : JVal :=
  .obj [("success", .bool true),
    ("jquery", .arr [.arr [.num 0, .num 1, .str "attr", .str "redirect"],
      .arr [.num 0, .num 1, .str "call",
        .arr [.str "https://www.reddit.com/r/x/comments/xyz/t/"]]])]

/-- A body matching neither response shape. -/
def dataWeird : JVal := .obj [("foo", .str "bar")]

/-- `postSelf` with an empty-string URL. -/
def postEmptyUrl : ParsedPost := { postSelf with url := some "" }

/-- `postSelf` with the unparseable URL `not-a-url`. -/
def postBadUrl : ParsedPost := { postSelf with url := some "not-a-url" }

/-- `postSelf` with the valid URL `https://example.com/x`. -/
def postGoodUrl : ParsedPost := { postSelf with url := some "https://example.com/x" }

/-- A transport error with the connection-refused code. -/
def proxyErr : JsError :=
  { message := "connect ECONNREFUSED 1.2.3.4:1080", code := some "ECONNREFUSED" }

/-! ## C2: response normalization of the two success shapes -/

/-- C2: on the Shape A success fixture (`json.data.id = "abc"`, permalink
`/r/x/comments/abc/y/`), `uploadPost` returns a success result with
postId `"abc"` and a url ending with `/comments/abc/y/`; on the Shape B
(jquery) success fixture with a redirect URL containing `/comments/xyz/`,
it returns a success with postId `"xyz"` and fullname `"t3_xyz"`. -/
theorem uploadPost_response_shapes :
    ((uploadPost (some acctC8) tokOk (.ok dataShapeA) postSelf).1 =
      .success { success := true, postId := some (.str "abc"),
                 name := some (.str "t3_abc"),
                 url := "https://reddit.com/r/x/comments/abc/y/" }) ∧
    (strEnds "https://reddit.com/r/x/comments/abc/y/" "/comments/abc/y/" = true) ∧
    ((uploadPost (some acctC8) tokOk (.ok dataShapeB) postSelf).1 =
      .success { success := true, postId := some (.str "xyz"),
                 name := some (.str "t3_xyz"),
                 url := "https://www.reddit.com/r/x/comments/xyz/t/" }) :=
  ⟨rfl, rfl, rfl⟩

/-! ## C3: unrecognized response shapes -/

/-- Counterexample for C3: on a body matching neither shape the error
finally thrown by `uploadPost` carries the UnexpectedResponseFormat
message but — contrary to the claim — no attached raw response body: the
outer catch block re-wraps the inner error (which did carry it) into a
fresh `Error` with only the message. -/
theorem uploadPost_unexpected_format_cex :
    (uploadPost (some acctC8) tokOk (.ok dataWeird) postSelf).1 =
      .thrown { message := unexpectedFormatMsg, code := none, status := none,
                responseData := none, redditResponse := none } := rfl

/-- C3 (amended): for every response body with no `json` property and no
jquery-array-with-boolean-success, the response handler raises the
UnexpectedResponseFormat error with the raw body attached, and
`uploadPost` never returns success — but the outer catch re-wraps the
error, so the error finally thrown to the caller carries only the
message. -/
theorem uploadPost_unexpected_format (a : Account) (tokenData : JVal)
    (post : ParsedPost) (data : JVal)
    (hcid : optStrTruthy a.client_id = true)
    (hsec : optStrTruthy a.client_secret = true)
    (hrt : optStrTruthy a.refresh_token = true)
    (hrts : a.refresh_token ≠ some "YOUR_REFRESH_TOKEN")
    (hurl : post.url = none)
    (hjson : jGet data "json" = none)
    (hjq : ∀ items, jGet data "jquery" = some (.arr items) →
      jGet data "success" ≠ some (.bool true) ∧
      jGet data "success" ≠ some (.bool false)) :
    normalizeSubmitResponse post data =
      .error { message := unexpectedFormatMsg, redditResponse := some data } ∧
    (uploadPost (some a) (.ok tokenData) (.ok data) post).1 =
      .thrown { message := unexpectedFormatMsg } := by
  have htokg : getAccessToken (some a) (.ok tokenData) =
      (.ok (jGet tokenData "access_token"), [.tokenExchange]) := by
    simp [getAccessToken, hcid, hsec, hrt, hrts]
  have hnorm : normalizeSubmitResponse post data =
      .error { message := unexpectedFormatMsg, redditResponse := some data } := by
    unfold normalizeSubmitResponse
    rw [hjson]
    show (match jGet data "jquery" with
      | some (.arr items) => _
      | _ => _) = _
    cases hq : jGet data "jquery" with
    | none => rfl
    | some v =>
      cases v with
      | arr items =>
        obtain ⟨h1, h2⟩ := hjq items hq
        cases hs : jGet data "success" with
        | none => rfl
        | some w =>
          cases w with
          | bool b =>
            cases b
            · exact absurd hs h2
            · exact absurd hs h1
          | null => rfl
          | num q => rfl
          | str s => rfl
          | arr l => rfl
          | obj l => rfl
      | null => rfl
      | bool b => rfl
      | num q => rfl
      | str s => rfl
      | obj l => rfl
  refine ⟨hnorm, ?_⟩
  simp only [uploadPost, htokg, hurl, optStrTruthy, hnorm]
  rfl

/-- Witness for C3 at the concrete body `"weird"` (a bare string, which
has no `json` and no `jquery` property). -/
theorem uploadPost_unexpected_format_witness :
    normalizeSubmitResponse postSelf (.str "weird") =
      .error { message := unexpectedFormatMsg,
               redditResponse := some (.str "weird") } ∧
    (uploadPost (some acctC8) (.ok (.obj [("access_token", .str "t")]))
      (.ok (.str "weird")) postSelf).1 =
      .thrown { message := unexpectedFormatMsg } :=
  uploadPost_unexpected_format acctC8 (.obj [("access_token", .str "t")])
    postSelf (.str "weird") rfl rfl rfl (by simp [acctC8]) rfl rfl
    (fun items h => by simp [jGet] at h)

/-! ## C5: URL validation -/

/-- Counterexample for C5: the empty-string URL is not rejected — it is
falsy, so the post is submitted as a self post and can succeed — and the
rejection of `not-a-url` happens only after the access-token exchange
(the network-call trace of the rejected call is `[tokenExchange]`). -/
theorem uploadPost_url_validation_cex :
    ((uploadPost (some acctC8) tokOk (.ok dataShapeA) postEmptyUrl).1 =
      .success { success := true, postId := some (.str "abc"),
                 name := some (.str "t3_abc"),
                 url := "https://reddit.com/r/x/comments/abc/y/" }) ∧
    (uploadPost (some acctC8) tokOk (.ok dataShapeA) postBadUrl =
      (.thrown { message := invalidUrlMsg "not-a-url" }, [NetCall.tokenExchange])) :=
  ⟨rfl, rfl⟩

/-- C5 (amended): `uploadPost` accepts `https://example.com/x` (the submit
call is reached), rejects `not-a-url` with an InvalidUrl error naming the
offending string — after the access-token exchange but before the submit
call — and treats the empty string as URL-absent (a self post), reaching
the submit call without rejection. -/
theorem uploadPost_url_validation (a : Account) (tokenData submitData : JVal)
    (post : ParsedPost)
    (hcid : optStrTruthy a.client_id = true)
    (hsec : optStrTruthy a.client_secret = true)
    (hrt : optStrTruthy a.refresh_token = true)
    (hrts : a.refresh_token ≠ some "YOUR_REFRESH_TOKEN") :
    (post.url = some "https://example.com/x" →
      (uploadPost (some a) (.ok tokenData) (.ok submitData) post).2 =
        [.tokenExchange, .submitPost]) ∧
    (post.url = some "not-a-url" →
      uploadPost (some a) (.ok tokenData) (.ok submitData) post =
        (.thrown { message := invalidUrlMsg "not-a-url" }, [.tokenExchange])) ∧
    (post.url = some "" →
      (uploadPost (some a) (.ok tokenData) (.ok submitData) post).2 =
        [.tokenExchange, .submitPost]) := by
  have htokg : getAccessToken (some a) (.ok tokenData) =
      (.ok (jGet tokenData "access_token"), [.tokenExchange]) := by
    simp [getAccessToken, hcid, hsec, hrt, hrts]
  refine ⟨?_, ?_, ?_⟩
  · intro hurl
    cases hnr : normalizeSubmitResponse post submitData <;>
      simp only [uploadPost, htokg, hurl, hnr] <;> rfl
  · intro hurl
    simp only [uploadPost, htokg, hurl]
    rfl
  · intro hurl
    cases hnr : normalizeSubmitResponse post submitData <;>
      simp only [uploadPost, htokg, hurl, hnr] <;> rfl

/-- Witness for C5: the concrete rejected call on `postBadUrl` (the trace
shows the token exchange already happened). -/
theorem uploadPost_url_validation_witness :
    uploadPost (some acctC8) (.ok (.obj [("access_token", .str "t")]))
      (.ok dataShapeA) postBadUrl =
      (.thrown { message := invalidUrlMsg "not-a-url" }, [.tokenExchange]) :=
  (uploadPost_url_validation acctC8 (.obj [("access_token", .str "t")])
    dataShapeA postBadUrl rfl rfl rfl (by simp [acctC8])).2.1 rfl

/-! ## C7: proxy-failure classification crashes on an out-of-scope binding -/

/-- C7 (code bug): on a transport error with code `ECONNREFUSED` or
`ETIMEDOUT` while the account has a proxy configured, the catch blocks of
`getAccessToken` and `uploadPost` take the "Proxy connection failed"
branch, whose template literal reads `account.proxy_host` — but `account`
is `const`-declared inside the `try` block and is out of scope in the
catch block, so a `ReferenceError: account is not defined` is raised
instead of the ProxyConnectionFailed message with host:port.  The caller
of `uploadPost` observes the re-wrapped message `account is not defined`
for a token-phase failure, and the raw `ReferenceError` for a
submit-phase failure. -/
theorem getAccessToken_proxy_crash (a : Account) (e : JsError)
    (tokenData submitData : JVal) (post : ParsedPost)
    (hcid : optStrTruthy a.client_id = true)
    (hsec : optStrTruthy a.client_secret = true)
    (hrt : optStrTruthy a.refresh_token = true)
    (hrts : a.refresh_token ≠ some "YOUR_REFRESH_TOKEN")
    (hhost : optStrTruthy a.proxy_host = true)
    (hport : optNatTruthy a.proxy_port = true)
    (hurl : post.url = none)
    (hcode : e.code = some "ECONNREFUSED" ∨ e.code = some "ETIMEDOUT") :
    getAccessToken (some a) (.err e) = (.referenceError, [.tokenExchange]) ∧
    (uploadPost (some a) (.err e) (.ok submitData) post).1 =
      .thrown { message := "account is not defined" } ∧
    (uploadPost (some a) (.ok tokenData) (.err e) post).1 =
      .referenceErrorAccount := by
  have hcatch : tokenCatch e = .referenceError := by
    unfold tokenCatch
    rcases hcode with h | h <;> rw [h] <;> rfl
  have htoke : getAccessToken (some a) (.err e) =
      (.referenceError, [.tokenExchange]) := by
    simp [getAccessToken, hcid, hsec, hrt, hrts, hcatch]
  have htokg : getAccessToken (some a) (.ok tokenData) =
      (.ok (jGet tokenData "access_token"), [.tokenExchange]) := by
    simp [getAccessToken, hcid, hsec, hrt, hrts]
  have hup : uploadPostCatch e = .referenceErrorAccount := by
    unfold uploadPostCatch
    rcases hcode with h | h <;> rw [h] <;> rfl
  refine ⟨htoke, ?_, ?_⟩
  · simp only [uploadPost, htoke]
    rfl
  · simp [uploadPost, htokg, hurl, hup, optStrTruthy]

/-- Witness for C7: the concrete account `acctC8` (proxy `p.example:8080`)
and a connection-refused transport error. -/
theorem getAccessToken_proxy_crash_witness :
    getAccessToken (some acctC8) (.err proxyErr) =
      (.referenceError, [.tokenExchange]) ∧
    (uploadPost (some acctC8) (.err proxyErr) (.ok dataShapeA) postSelf).1 =
      .thrown { message := "account is not defined" } ∧
    (uploadPost (some acctC8) tokOk (.err proxyErr) postSelf).1 =
      .referenceErrorAccount :=
  getAccessToken_proxy_crash acctC8 proxyErr (.obj [("access_token", .str "tok")])
    dataShapeA postSelf rfl rfl rfl (by simp [acctC8]) rfl rfl rfl (Or.inl rfl)

/-! ## The batch orchestrator (`uploadAllPosts`, src/unnamed/part_004 lines 359-401) -/

/-- The batch progress record `uploadProgress[uploadId]`. -/
structure BatchProgress where
  total : Nat
  current : Nat
  completed : List (ParsedPost × SubmitResult)
  failed : List (ParsedPost × String)

/-- An observable action of the orchestrator loop: a progress-callback
invocation `{current, total, post}`, or an awaited inter-post delay (in
seconds, as sampled by `getRandomDelay`; the source sleeps
`delay * 1000` ms). -/
inductive BatchEvent where
  | callback (current total : Nat) (post : ParsedPost)
  | delayWait (seconds : Int)

/-- The orchestrator loop (lines 370-398): `outcome i` is the result of
`await uploadPost(validPosts[i], accountId)` (`Except.error` carries the
thrown error's message) and `rands i` the `Math.random()` sample for the
delay after post `i`.  On success the loop advances `current`, records
the result, fires the progress callback and — except after the last
post — awaits the sampled delay; on failure the `catch` block only
records the failure and the iteration continues. -/
def uploadLoop (outcome : Nat → Except String SubmitResult) (total : Nat)
    (delayFrom delayUpTo : Int) (rands : Nat → ℚ) :
    Nat → List ParsedPost → BatchProgress → BatchProgress × List BatchEvent
  | _, [], prog => (prog, [])
  | i, p :: rest, prog =>
    match outcome i with
    | .ok result =>
      let prog' : BatchProgress :=
        { prog with current := i + 1, completed := prog.completed ++ [(p, result)] }
      let evs := [BatchEvent.callback (i + 1) total p] ++
        (if i < total - 1 then
          [BatchEvent.delayWait (getRandomDelay delayFrom delayUpTo (rands i))]
        else [])
      let r := uploadLoop outcome total delayFrom delayUpTo rands (i + 1) rest prog'
      (r.1, evs ++ r.2)
    | .error msg =>
      let prog' : BatchProgress := { prog with failed := prog.failed ++ [(p, msg)] }
      uploadLoop outcome total delayFrom delayUpTo rands (i + 1) rest prog'

/-- `uploadAllPosts`: filters the input to the valid posts, creates the
progress record under a fresh upload id in the progress table
unconditionally, runs the loop, and returns the final record together
with the events and the updated table (the table entry is the same
mutated object as the returned record). -/
def uploadAllPosts (posts : List ParsedPost)
    (outcome : Nat → Except String SubmitResult)
    (delayFrom delayUpTo : Int) (rands : Nat → ℚ) (uploadId : String)
    (table : List (String × BatchProgress)) :
    BatchProgress × List BatchEvent × List (String × BatchProgress) :=
  let validPosts := posts.filter (fun p => p.isValid)
  let init : BatchProgress :=
    { total := validPosts.length, current := 0, completed := [], failed := [] }
  let r := uploadLoop outcome validPosts.length delayFrom delayUpTo rands 0 validPosts init
  (r.1, r.2, table ++ [(uploadId, r.1)])

/-- Records already in `completed` survive the rest of the loop. -/
lemma uploadLoop_completed_mono (outcome : Nat → Except String SubmitResult)
    (total : Nat) (df du : Int) (rands : Nat → ℚ) :
    ∀ (l : List ParsedPost) (i : Nat) (prog : BatchProgress)
      (x : ParsedPost × SubmitResult), x ∈ prog.completed →
      x ∈ (uploadLoop outcome total df du rands i l prog).1.completed := by
  intro l
  induction l with
  | nil => intro i prog x hx; exact hx
  | cons p rest ih =>
    intro i prog x hx
    simp only [uploadLoop]
    cases h : outcome i with
    | ok result =>
      exact ih (i + 1)
        { prog with current := i + 1, completed := prog.completed ++ [(p, result)] }
        x (List.mem_append_left _ hx)
    | error msg =>
      exact ih (i + 1) { prog with failed := prog.failed ++ [(p, msg)] } x hx

/-- Records already in `failed` survive the rest of the loop. -/
lemma uploadLoop_failed_mono (outcome : Nat → Except String SubmitResult)
    (total : Nat) (df du : Int) (rands : Nat → ℚ) :
    ∀ (l : List ParsedPost) (i : Nat) (prog : BatchProgress)
      (x : ParsedPost × String), x ∈ prog.failed →
      x ∈ (uploadLoop outcome total df du rands i l prog).1.failed := by
  intro l
  induction l with
  | nil => intro i prog x hx; exact hx
  | cons p rest ih =>
    intro i prog x hx
    simp only [uploadLoop]
    cases h : outcome i with
    | ok result =>
      exact ih (i + 1)
        { prog with current := i + 1, completed := prog.completed ++ [(p, result)] }
        x hx
    | error msg =>
      exact ih (i + 1) { prog with failed := prog.failed ++ [(p, msg)] } x
        (List.mem_append_left _ hx)

/-- Per-index behaviour of the loop: a successful attempt is recorded,
its callback fired and (except after the last post) its sampled delay
awaited; a failed attempt is recorded among the failures. -/
lemma uploadLoop_step (outcome : Nat → Except String SubmitResult)
    (total : Nat) (df du : Int) (rands : Nat → ℚ) :
    ∀ (l : List ParsedPost) (i : Nat) (prog : BatchProgress) (j : Nat)
      (hj : j < l.length),
      (∀ res, outcome (i + j) = .ok res →
        (l.get ⟨j, hj⟩, res) ∈ (uploadLoop outcome total df du rands i l prog).1.completed ∧
        BatchEvent.callback (i + j + 1) total (l.get ⟨j, hj⟩) ∈
          (uploadLoop outcome total df du rands i l prog).2 ∧
        (i + j < total - 1 →
          BatchEvent.delayWait (getRandomDelay df du (rands (i + j))) ∈
            (uploadLoop outcome total df du rands i l prog).2)) ∧
      (∀ msg, outcome (i + j) = .error msg →
        (l.get ⟨j, hj⟩, msg) ∈ (uploadLoop outcome total df du rands i l prog).1.failed) := by
  intro l
  induction l with
  | nil => intro i prog j hj; exact absurd hj (by simp)
  | cons p rest ih =>
    intro i prog j hj
    cases j with
    | zero =>
      constructor
      · intro res hres
        simp only [uploadLoop, Nat.add_zero] at *
        rw [hres]
        refine ⟨?_, ?_, ?_⟩
        · exact uploadLoop_completed_mono outcome total df du rands rest (i + 1) _
            (p, res) (List.mem_append_right _ (by simp))
        · exact List.mem_append_left _ (by simp)
        · intro hlt
          apply List.mem_append_left
          simp [hlt]
      · intro msg hmsg
        simp only [uploadLoop, Nat.add_zero] at *
        rw [hmsg]
        exact uploadLoop_failed_mono outcome total df du rands rest (i + 1) _
          (p, msg) (List.mem_append_right _ (by simp))
    | succ j' =>
      have hj' : j' < rest.length := by simpa using hj
      have harith : i + (j' + 1) = (i + 1) + j' := by omega
      have harith1 : i + (j' + 1) + 1 = (i + 1) + j' + 1 := by omega
      constructor
      · intro res hres
        rw [harith] at hres
        simp only [uploadLoop]
        cases h : outcome i with
        | ok result =>
          obtain ⟨h1, h2, h3⟩ := (ih (i + 1) _ j' hj').1 res hres
          refine ⟨h1, ?_, ?_⟩
          · rw [show ((p :: rest).get ⟨j' + 1, hj⟩) = rest.get ⟨j', hj'⟩ from rfl,
              harith1]
            exact List.mem_append_right _ h2
          · intro hlt
            rw [harith] at hlt ⊢
            exact List.mem_append_right _ (h3 hlt)
        | error msg =>
          obtain ⟨h1, h2, h3⟩ := (ih (i + 1) _ j' hj').1 res hres
          refine ⟨h1, ?_, ?_⟩
          · rw [show ((p :: rest).get ⟨j' + 1, hj⟩) = rest.get ⟨j', hj'⟩ from rfl,
              harith1]
            exact h2
          · intro hlt
            rw [harith] at hlt ⊢
            exact h3 hlt
      · intro msg hmsg
        rw [harith] at hmsg
        simp only [uploadLoop]
        cases h : outcome i with
        | ok result =>
          exact (ih (i + 1) _ j' hj').2 msg hmsg
        | error m =>
          exact (ih (i + 1) _ j' hj').2 msg hmsg

/-- Every callback event of the loop originates from a successful attempt:
its `current` field identifies the attempt's index. -/
lemma uploadLoop_callback_src (outcome : Nat → Except String SubmitResult)
    (total : Nat) (df du : Int) (rands : Nat → ℚ) :
    ∀ (l : List ParsedPost) (i : Nat) (prog : BatchProgress) (c t : Nat)
      (p : ParsedPost),
      BatchEvent.callback c t p ∈ (uploadLoop outcome total df du rands i l prog).2 →
      ∃ j, ∃ hj : j < l.length, c = i + j + 1 ∧
        ∃ res, outcome (i + j) = .ok res ∧ p = l.get ⟨j, hj⟩ := by
  intro l
  induction l with
  | nil =>
    intro i prog c t p hmem
    exact absurd hmem (by simp [uploadLoop])
  | cons q rest ih =>
    intro i prog c t p hmem
    simp only [uploadLoop] at hmem
    cases h : outcome i with
    | ok result =>
      rw [h] at hmem
      simp only [List.cons_append, List.nil_append, List.mem_cons] at hmem
      rcases hmem with heq | hmem
      · injection heq with h1 h2 h3
        exact ⟨0, by simp, by omega, result, by simpa using h, by simp [h3]⟩
      · rcases List.mem_append.mp hmem with hif | hrec
        · by_cases hc : i < total - 1
          · rw [if_pos hc] at hif
            simp at hif
          · rw [if_neg hc] at hif
            simp at hif
        · obtain ⟨j', hj', hc, res, hres, hp⟩ := ih (i + 1) _ c t p hrec
          exact ⟨j' + 1, by simpa using hj', by omega,
            res, by rw [show i + (j' + 1) = (i + 1) + j' from by omega]; exact hres,
            hp⟩
    | error msg =>
      rw [h] at hmem
      obtain ⟨j', hj', hc, res, hres, hp⟩ := ih (i + 1) _ c t p hmem
      exact ⟨j' + 1, by simpa using hj', by omega,
        res, by rw [show i + (j' + 1) = (i + 1) + j' from by omega]; exact hres,
        hp⟩

/-- A concrete successful submit result, used by batch fixtures. -/
def resFix : SubmitResult :=
  { success := true, postId := some (.str "abc"), name := some (.str "t3_abc"),
    url := "https://reddit.com/r/x/comments/abc/y/" }

/-- C1 (amended): in every batch run, a successful attempt is recorded in
the progress record, fires the progress callback with
`{current = i+1, total, post}` and — unless the post is the last of the
filtered sequence — awaits a delay sampled by `getRandomDelay`; a failed
attempt is only recorded among the failures: no progress callback carries
its index and no inter-post delay is awaited for it. -/
theorem uploadAllPosts_attempt_records (posts : List ParsedPost)
    (outcome : Nat → Except String SubmitResult) (df du : Int)
    (rands : Nat → ℚ) (uploadId : String) (i : Nat)
    (hi : i < (posts.filter (fun p => p.isValid)).length) :
    (∀ res, outcome i = .ok res →
      ((posts.filter (fun p => p.isValid)).get ⟨i, hi⟩, res) ∈
        (uploadAllPosts posts outcome df du rands uploadId []).1.completed ∧
      BatchEvent.callback (i + 1) (posts.filter (fun p => p.isValid)).length
          ((posts.filter (fun p => p.isValid)).get ⟨i, hi⟩) ∈
        (uploadAllPosts posts outcome df du rands uploadId []).2.1 ∧
      (i + 1 < (posts.filter (fun p => p.isValid)).length →
        BatchEvent.delayWait (getRandomDelay df du (rands i)) ∈
          (uploadAllPosts posts outcome df du rands uploadId []).2.1)) ∧
    (∀ msg, outcome i = .error msg →
      ((posts.filter (fun p => p.isValid)).get ⟨i, hi⟩, msg) ∈
        (uploadAllPosts posts outcome df du rands uploadId []).1.failed ∧
      ∀ t p, BatchEvent.callback (i + 1) t p ∉
        (uploadAllPosts posts outcome df du rands uploadId []).2.1) := by
  have hstep := uploadLoop_step outcome
    (posts.filter (fun p => p.isValid)).length df du rands
    (posts.filter (fun p => p.isValid)) 0 ⟨(posts.filter (fun p => p.isValid)).length, 0, [], []⟩ i hi
  constructor
  · intro res hres
    obtain ⟨h1, h2, h3⟩ := hstep.1 res (by simpa using hres)
    refine ⟨h1, by simpa using h2, ?_⟩
    intro hlt
    have : 0 + i < (posts.filter (fun p => p.isValid)).length - 1 := by omega
    simpa using h3 this
  · intro msg hmsg
    refine ⟨hstep.2 msg (by simpa using hmsg), ?_⟩
    intro t p hmem
    obtain ⟨j, hj, hc, res, hres, hp⟩ :=
      uploadLoop_callback_src outcome
        (posts.filter (fun p => p.isValid)).length df du rands
        (posts.filter (fun p => p.isValid)) 0 _ (i + 1) t p hmem
    have hij : j = i := by omega
    subst hij
    rw [show (0 : Nat) + j = j from by omega] at hres
    rw [hmsg] at hres
    exact Except.noConfusion hres

/-- Counterexample for C1: in a two-post batch whose first submission
fails, the full event trace is a single callback for the second post — no
progress callback fires for the failed first attempt and no inter-post
delay is awaited after it, although the first post is not the last of the
sequence (the batch progress record does record the failure). -/
theorem uploadAllPosts_attempt_records_cex :
    uploadAllPosts [postSelf, postGoodUrl]
      (fun i => if i = 0 then .error "boom" else .ok resFix) 2 5 (fun _ => 1/2)
      "run1" [] =
    ({ total := 2, current := 2, completed := [(postGoodUrl, resFix)],
       failed := [(postSelf, "boom")] },
     [BatchEvent.callback 2 2 postGoodUrl],
     [("run1", { total := 2, current := 2, completed := [(postGoodUrl, resFix)],
                 failed := [(postSelf, "boom")] })]) := rfl

/-- Witness for C1 at a concrete two-post batch: the successful second
attempt is recorded in `completed`. -/
theorem uploadAllPosts_attempt_records_witness :
    (([postSelf, postGoodUrl].filter (fun p => p.isValid)).get ⟨1, by decide⟩, resFix) ∈
      (uploadAllPosts [postSelf, postGoodUrl]
        (fun i => if i = 0 then .error "boom" else .ok resFix) 2 5 (fun _ => 1/2)
        "run1" []).1.completed :=
  ((uploadAllPosts_attempt_records [postSelf, postGoodUrl]
    (fun i => if i = 0 then .error "boom" else .ok resFix) 2 5 (fun _ => 1/2)
    "run1" 1 (by decide)).1 resFix rfl).1

/-- A record appended by `pushPost` with a blank title is invalid. -/
lemma pushPost_title_mem {r : ParsedPost} {c : CurrentPost} {posts : List ParsedPost}
    (h : r ∈ pushPost c posts) :
    r ∈ posts ∨ (r.title.isEmpty = true → r.isValid = false) := by
  simp only [pushPost] at h
  by_cases hs : (!c.subreddit.isEmpty && !(jsTrim c.subreddit).isEmpty) = true
  · rw [if_pos hs] at h
    rcases List.mem_append.mp h with h' | h'
    · exact Or.inl h'
    · simp only [List.mem_singleton] at h'
      subst h'
      refine Or.inr ?_
      intro htitle
      by_cases ht : optStrTruthy c.title = true
      · simp only [ht, if_true] at htitle
        simp [hasValidOptStr, ht, htitle]
      · simp only [Bool.not_eq_true] at ht
        simp [hasValidOptStr, ht]
  · rw [if_neg hs] at h
    exact Or.inl h

/-- The loop invariant: a returned record with a blank title is invalid. -/
lemma parseLines_title : ∀ (lines : List String) (cp : Option CurrentPost)
    (posts : List ParsedPost),
    (∀ r ∈ posts, r.title.isEmpty = true → r.isValid = false) →
    ∀ r ∈ parseLines lines cp posts, r.title.isEmpty = true → r.isValid = false
  | [], cp, posts, hmem => by
    cases cp with
    | none => exact hmem
    | some c =>
      intro r hr
      rcases pushPost_title_mem hr with h | h
      · exact hmem r h
      · exact h
  | line :: rest, cp, posts, hmem => by
    simp only [parseLines]
    rcases stepLine_posts line cp posts with h | ⟨c, h⟩
    · exact parseLines_title rest _ _ (by rw [h]; exact hmem)
    · refine parseLines_title rest _ _ ?_
      rw [h]
      intro r hr
      rcases pushPost_title_mem hr with h' | h'
      · exact hmem r h'
      · exact h'

/-- C9 (amended): a record returned by `parseTxtFile` with an empty
subreddit or title has its validity flag false (an empty subreddit in
fact never reaches the output); an invalid post is excluded from the
filtered sequence the orchestrator runs over; but when no input post is
valid, `uploadAllPosts` still creates (and returns) an empty run record
with total 0 in the progress table — the guard refusing to start is in
its caller, not in the orchestrator. -/
theorem uploadAllPosts_validity (content : String) (posts : List ParsedPost)
    (outcome : Nat → Except String SubmitResult) (df du : Int) (rands : Nat → ℚ)
    (uploadId : String) :
    (∀ r ∈ parseTxtFile content,
      (r.subreddit.isEmpty = true ∨ r.title.isEmpty = true) → r.isValid = false) ∧
    (∀ p ∈ posts, p.isValid = false → p ∉ posts.filter (fun q => q.isValid)) ∧
    ((∀ p ∈ posts, p.isValid = false) →
      uploadAllPosts posts outcome df du rands uploadId [] =
        ({ total := 0, current := 0, completed := [], failed := [] }, [],
         [(uploadId, { total := 0, current := 0, completed := [], failed := [] })])) := by
  refine ⟨?_, ?_, ?_⟩
  · intro r hr hcase
    rcases hcase with hsub | htit
    · have hinv := ((parseLines_inv ((jsSplitLines content).map jsTrim) none []
        (by simp) (by simp)).1 r hr).2.1
      rw [hsub] at hinv
      exact absurd hinv (by simp)
    · exact parseLines_title ((jsSplitLines content).map jsTrim) none []
        (by simp) r hr htit
  · intro p _ hpv hmem
    have hval := (List.mem_filter.mp hmem).2
    rw [hpv] at hval
    exact absurd hval (by simp)
  · intro hall
    have hfil : posts.filter (fun q => q.isValid) = [] := by
      rw [List.filter_eq_nil_iff]
      intro a ha
      simp [hall a ha]
    simp only [uploadAllPosts, hfil]
    rfl

/-- Counterexample for C9: on a batch whose single post is invalid, the
orchestrator still creates a run: the progress table gains an entry (with
total 0) under the fresh upload id, contradicting "no run is created". -/
theorem uploadAllPosts_validity_cex :
    uploadAllPosts [{ postSelf with title := "", hasTitle := false, isValid := false }]
      (fun _ => .error "unused") 2 5 (fun _ => 1/2) "run1" [] =
      ({ total := 0, current := 0, completed := [], failed := [] }, [],
       [("run1", { total := 0, current := 0, completed := [], failed := [] })]) := rfl

/-! ## The frontend batch loop (`postAll`, src/unnamed/part_000 lines 516-700)

The browser-side driver submits each valid post through
`POST /api/posts/single`, checks the shared `isPostingAll` flag at the top
of each iteration, and waits between posts in a one-second-tick countdown
that re-checks the flag at every tick.  Time is modelled in seconds from
the start of the run; `flag` is the value `isPostingAll` would be read to
have at a given second (cancellation clears it permanently). -/

/-- The countdown wait (lines 673-678): the loop condition
`countdown > 0 && isPostingAll` is checked, then one second is slept.
Returns the time at which the wait ends. -/
def countdownWait (flag : Nat → Bool) : Nat → Nat → Nat
  | 0, t => t
  | c + 1, t => if flag t then countdownWait flag c (t + 1) else t

/-- The inline delay sample of `postAll` (lines 665-667):
`delayFrom + delayUpTo > 0 ? Math.floor(Math.random() * (delayUpTo - delayFrom + 1)) + delayFrom : 0`
(the upstream form validation has already enforced
`0 ≤ delayFrom ≤ delayUpTo`). -/
def postAllDelay (delayFrom delayUpTo : Int) (rand : ℚ) : Int :=
  if delayFrom + delayUpTo > 0 then
    ⌊rand * ((delayUpTo : ℚ) - (delayFrom : ℚ) + 1)⌋ + delayFrom
  else 0

/-- The visible outcome of one `fetch('/api/posts/single')`:
`okSuccess` is `response.ok && data.success`; `rejected` is a delivered
non-success response (the `else` branch increments `failed` and throws,
and the catch block increments `failed` a second time); `raised` is a
fetch/parse exception (the catch block increments `failed` once). -/
inductive FetchResult where
  | okSuccess
  | rejected
  | raised
  deriving DecidableEq

/-- The final state of a `postAll` run: end time, tallies, and the
`(start time, index)` of every submission launched. -/
structure PostAllResult where
  endTime : Nat
  completed : Nat
  failed : Nat
  subs : List (Nat × Nat)

/-- The `postAll` loop (lines 583-681) over the remaining `n` posts,
`i` the next index, `t` the current time: the flag is checked at the top
of each iteration (`if (!isPostingAll) break`); a submission takes
`dur i` seconds and is not interruptible; the delay runs only when
`i < total - 1 && isPostingAll` and the sampled delay is positive, as a
flag-checking countdown. -/
def postAllLoop (flag : Nat → Bool) (result : Nat → FetchResult)
    (dur : Nat → Nat) (delayFrom delayUpTo : Int) (rands : Nat → ℚ)
    (total : Nat) :
    Nat → Nat → Nat → Nat → Nat → List (Nat × Nat) → PostAllResult
  | 0, _, t, c, f, subs => ⟨t, c, f, subs⟩
  | n + 1, i, t, c, f, subs =>
    if flag t = false then ⟨t, c, f, subs⟩
    else
      let t' := t + dur i
      let cf : Nat × Nat :=
        match result i with
        | .okSuccess => (c + 1, f)
        | .rejected => (c, f + 2)
        | .raised => (c, f + 1)
      let subs' := subs ++ [(t, i)]
      if i < total - 1 ∧ flag t' then
        let d := postAllDelay delayFrom delayUpTo (rands i)
        let t'' := if d > 0 then countdownWait flag d.toNat t' else t'
        postAllLoop flag result dur delayFrom delayUpTo rands total n (i + 1) t'' cf.1 cf.2 subs'
      else
        postAllLoop flag result dur delayFrom delayUpTo rands total n (i + 1) t' cf.1 cf.2 subs'

/-- `postAll` once the run has started (the guards before it — no valid
posts, inverted delay range — return without a run): `total` valid posts
from index 0 at time 0. -/
def postAll (flag : Nat → Bool) (result : Nat → FetchResult) (dur : Nat → Nat)
    (delayFrom delayUpTo : Int) (rands : Nat → ℚ) (total : Nat) : PostAllResult :=
  postAllLoop flag result dur delayFrom delayUpTo rands total total 0 0 0 0 []

/-- Is a submission's fetch outcome `okSuccess`? -/
def isOkSub (result : Nat → FetchResult) (x : Nat × Nat) : Bool :=
  result x.2 = FetchResult.okSuccess

/-- Is a submission's fetch outcome `rejected`? -/
def isRejSub (result : Nat → FetchResult) (x : Nat × Nat) : Bool :=
  result x.2 = FetchResult.rejected

/-- Is a submission's fetch outcome `raised`? -/
def isRaisedSub (result : Nat → FetchResult) (x : Nat × Nat) : Bool :=
  result x.2 = FetchResult.raised

/-- The countdown ends within one tick of cancellation: with the flag down
from time `T` on, a wait entered at `t` ends by `max t T`. -/
lemma countdownWait_cancel (flag : Nat → Bool) (T : Nat)
    (hflag : ∀ s, T ≤ s → flag s = false) :
    ∀ (c t : Nat), countdownWait flag c t ≤ max t T := by
  intro c
  induction c with
  | zero => intro t; simp [countdownWait]
  | succ c ih =>
    intro t
    simp only [countdownWait]
    by_cases hf : flag t
    · rw [if_pos hf]
      have htT : t < T := by
        by_contra hge
        rw [hflag t (by omega)] at hf
        exact Bool.noConfusion hf
      have := ih (t + 1)
      have hmax : max (t + 1) T = T := by omega
      rw [hmax] at this
      omega
    · rw [if_neg hf]
      omega

/-- Submissions recorded by the loop either predate the call or were
launched at a time when the flag was still up. -/
lemma postAllLoop_subs (flag : Nat → Bool) (result : Nat → FetchResult)
    (dur : Nat → Nat) (df du : Int) (rands : Nat → ℚ) (total : Nat) :
    ∀ (n i t c f : Nat) (subs : List (Nat × Nat)) (x : Nat × Nat),
      x ∈ (postAllLoop flag result dur df du rands total n i t c f subs).subs →
      x ∈ subs ∨ flag x.1 = true := by
  intro n
  induction n with
  | zero => intro i t c f subs x hx; exact Or.inl hx
  | succ n ih =>
    intro i t c f subs x hx
    simp only [postAllLoop] at hx
    by_cases hf : flag t = false
    · rw [if_pos hf] at hx
      exact Or.inl hx
    · rw [if_neg hf] at hx
      have hft : flag t = true := by
        cases h : flag t
        · exact absurd h hf
        · rfl
      split at hx <;>
      · rcases ih _ _ _ _ _ x hx with hmem | hup
        · rcases List.mem_append.mp hmem with h' | h'
          · exact Or.inl h'
          · simp only [List.mem_singleton] at h'
            subst h'
            exact Or.inr hft
        · exact Or.inr hup

/-- The tallies are a function of the launched submissions' own fetch
outcomes: `completed` counts the `okSuccess` ones, `failed` counts two per
`rejected` (the double increment of the source) plus one per `raised` —
nothing else, in particular nothing added at cancellation. -/
lemma postAllLoop_tallies (flag : Nat → Bool) (result : Nat → FetchResult)
    (dur : Nat → Nat) (df du : Int) (rands : Nat → ℚ) (total : Nat) :
    ∀ (n i t c f : Nat) (subs : List (Nat × Nat)),
      ∃ newsubs,
        (postAllLoop flag result dur df du rands total n i t c f subs).subs =
          subs ++ newsubs ∧
        (postAllLoop flag result dur df du rands total n i t c f subs).completed =
          c + (newsubs.filter (isOkSub result)).length ∧
        (postAllLoop flag result dur df du rands total n i t c f subs).failed =
          f + 2 * (newsubs.filter (isRejSub result)).length +
            (newsubs.filter (isRaisedSub result)).length := by
  intro n
  induction n with
  | zero =>
    intro i t c f subs
    exact ⟨[], by simp [postAllLoop], by simp [postAllLoop], by simp [postAllLoop]⟩
  | succ n ih =>
    intro i t c f subs
    simp only [postAllLoop]
    by_cases hf : flag t = false
    · rw [if_pos hf]
      exact ⟨[], by simp, by simp, by simp⟩
    · rw [if_neg hf]
      split
      · obtain ⟨ns, h1, h2, h3⟩ := ih (i + 1)
          (if postAllDelay df du (rands i) > 0 then
            countdownWait flag (postAllDelay df du (rands i)).toNat (t + dur i)
          else t + dur i)
          (match result i with
            | .okSuccess => (c + 1, f)
            | .rejected => (c, f + 2)
            | .raised => (c, f + 1)).1
          (match result i with
            | .okSuccess => (c + 1, f)
            | .rejected => (c, f + 2)
            | .raised => (c, f + 1)).2
          (subs ++ [(t, i)])
        refine ⟨(t, i) :: ns, by simpa using h1, ?_, ?_⟩ <;>
          cases hres : result i <;>
          rw [hres] at h2 h3 <;>
          simp [isOkSub, isRejSub, isRaisedSub, hres, h2, h3] <;>
          omega
      · obtain ⟨ns, h1, h2, h3⟩ := ih (i + 1) (t + dur i)
          (match result i with
            | .okSuccess => (c + 1, f)
            | .rejected => (c, f + 2)
            | .raised => (c, f + 1)).1
          (match result i with
            | .okSuccess => (c + 1, f)
            | .rejected => (c, f + 2)
            | .raised => (c, f + 1)).2
          (subs ++ [(t, i)])
        refine ⟨(t, i) :: ns, by simpa using h1, ?_, ?_⟩ <;>
          cases hres : result i <;>
          rw [hres] at h2 h3 <;>
          simp [isOkSub, isRejSub, isRaisedSub, hres, h2, h3] <;>
          omega

/-- C4: once cancellation is requested at time `T` (the shared flag reads
false from `T` on), the delay wait — a per-second flag-checking countdown,
not an uninterruptible sleep — ends within one tick (`max t T`), the run
launches no submission at or after `T`, and the tallies stay determined by
the launched submissions' own outcomes alone: cancellation marks no post
as failed. -/
theorem postAll_cancellation (flag : Nat → Bool) (result : Nat → FetchResult)
    (dur : Nat → Nat) (df du : Int) (rands : Nat → ℚ) (total : Nat) (T : Nat)
    (hflag : ∀ s, T ≤ s → flag s = false) :
    (∀ c t, countdownWait flag c t ≤ max t T) ∧
    (∀ x, x ∈ (postAll flag result dur df du rands total).subs → x.1 < T) ∧
    (∃ newsubs,
      (postAll flag result dur df du rands total).subs = newsubs ∧
      (postAll flag result dur df du rands total).completed =
        (newsubs.filter (isOkSub result)).length ∧
      (postAll flag result dur df du rands total).failed =
        2 * (newsubs.filter (isRejSub result)).length +
          (newsubs.filter (isRaisedSub result)).length) := by
  refine ⟨countdownWait_cancel flag T hflag, ?_, ?_⟩
  · intro x hx
    rcases postAllLoop_subs flag result dur df du rands total total 0 0 0 0 [] x hx with
      hmem | hup
    · exact absurd hmem (by simp)
    · by_contra hge
      rw [hflag x.1 (by omega)] at hup
      exact Bool.noConfusion hup
  · obtain ⟨ns, h1, h2, h3⟩ :=
      postAllLoop_tallies flag result dur df du rands total total 0 0 0 0 []
    exact ⟨ns, by simpa using h1, by simpa using h2, by simpa using h3⟩

/-- Witness for C4: a concrete three-post run cancelled at time 2, with
one-second submissions and delays sampled in `[1, 3]`. -/
theorem postAll_cancellation_witness :
    (∀ c t, countdownWait (fun s => decide (s < 2)) c t ≤ max t 2) ∧
    (∀ x, x ∈ (postAll (fun s => decide (s < 2)) (fun _ => .okSuccess)
      (fun _ => 1) 1 3 (fun _ => 1/2) 3).subs → x.1 < 2) ∧
    (∃ newsubs,
      (postAll (fun s => decide (s < 2)) (fun _ => .okSuccess)
        (fun _ => 1) 1 3 (fun _ => 1/2) 3).subs = newsubs ∧
      (postAll (fun s => decide (s < 2)) (fun _ => .okSuccess)
        (fun _ => 1) 1 3 (fun _ => 1/2) 3).completed =
        (newsubs.filter (isOkSub (fun _ => .okSuccess))).length ∧
      (postAll (fun s => decide (s < 2)) (fun _ => .okSuccess)
        (fun _ => 1) 1 3 (fun _ => 1/2) 3).failed =
        2 * (newsubs.filter (isRejSub (fun _ => .okSuccess))).length +
          (newsubs.filter (isRaisedSub (fun _ => .okSuccess))).length) :=
  postAll_cancellation (fun s => decide (s < 2)) (fun _ => .okSuccess)
    (fun _ => 1) 1 3 (fun _ => 1/2) 3 2
    (fun s hs => by simp [Nat.not_lt.mpr hs])

end RedditPost
